import Mathlib

/-!
Verification development for the uKids availability form
(source: src/app_fixed.py).

The Python source is shallowly embedded: pure helpers become Lean
functions on `String`/`List`, pandas data frames become lists of
structures, and the `re.search` call of `parse_yescount_condition`
becomes an explicit leftmost-match scanner.  Machine integers do not
overflow anywhere in the modelled code (counts and thresholds are small
non-negative integers), so `Nat` is used directly.
-/

namespace UKidsAvailability

/-! ## Python string primitives -/

/-- Characters treated as whitespace by Python's `str.strip()` (the
ASCII whitespace set; the source replaces the non-breaking space by a
plain space before stripping, so this set suffices). -/
def isPySpace (c : Char) : Bool :=
  c = ' ' || c = '\t' || c = '\n' || c = '\r' || c = '\x0b' || c = '\x0c'

/-- Strip `isPySpace` characters from both ends of a character list. -/
def stripList (l : List Char) : List Char :=
  ((l.dropWhile isPySpace).reverse.dropWhile isPySpace).reverse

/-- Python `str.strip()`. -/
def pyStrip (s : String) : String := String.mk (stripList s.data)

/-- Python `str.lower()` (ASCII; the modelled column names and answers
are ASCII apart from the explicitly handled NBSP/ZWSP characters,
which are not cased). -/
def pyLower (s : String) : String := String.mk (s.data.map Char.toLower)

/-- Non-breaking space (U+00A0). -/
def nbspChar : Char := Char.ofNat 0xA0

/-- Zero-width space (U+200B). -/
def zwspChar : Char := Char.ofNat 0x200B

/-- Embedding of `_norm_col` (src/app_fixed.py line 114):
replace NBSP by a space, drop ZWSP, strip, lowercase. -/
def normCol (s : String) : String :=
  pyLower (pyStrip (String.mk
    ((s.data.map fun c => if c = nbspChar then ' ' else c).filter
      fun c => c ≠ zwspChar)))

/-! ## Schema loading (`has_cols` / `load_data`) -/

/-- Embedding of `has_cols` (line 129): the required columns whose
normalized name does not occur among the table's normalized column
names.  The source returns a set; the missing columns are kept here as
the sublist of `required`, which carries the same membership. -/
def missingCols (cols required : List String) : List String :=
  required.filter fun r => !cols.any fun c => normCol c == normCol r

/-- Embedding of the schema check in `load_data` (lines 162-170): if
any required column is missing a `RuntimeError` is raised whose message
joins all missing columns, sorted; otherwise loading proceeds.
`some msg` models the raised error, `none` models success. -/
def loadCheck (cols required : List String) : Option String :=
  if missingCols cols required = [] then none
  else some (String.intercalate ", "
    (List.insertionSort (· ≤ ·) (missingCols cols required)))

/-! ## Answers and yes counting -/

/-- `answers.get(k, "")` over the session answer dict, modelled as an
association list. -/
def getAns (answers : List (String × String)) (k : String) : String :=
  (List.lookup k answers).getD ""

/-- Embedding of `yes_count` (line 348): the number of ids whose answer
lowercases to `"yes"`. -/
def yesCount (answers : List (String × String)) (ids : List String) : Nat :=
  ids.countP fun qid => pyLower (getAns answers qid) == "yes"

/-! ## The show-condition parser (`parse_yescount_condition`)

The source calls `re.search(r'yes_count\s*(<=|<|>=|>|==|=)\s*(\d+)', t, re.I)`
on the stripped condition string.  The scanner below reproduces the
leftmost-match semantics: try to match at each position left to right.
For this pattern greedy whitespace skipping and first-matching-operator
commitment coincide with the backtracking semantics, because the
character after the consumed operator can never rescue a failed
alternative (it would have to be a digit, and the rejected alternatives
fail on `=`, `<` or `>` in that position). -/

/-- Case-insensitive literal prefix match; returns the rest of the
input on success. -/
def matchPrefixCI : List Char → List Char → Option (List Char)
  | [], rest => some rest
  | _ :: _, [] => none
  | p :: ps, c :: cs =>
      if c.toLower = p.toLower then matchPrefixCI ps cs else none

/-- The operator alternation `<=|<|>=|>|==|=`, tried in order (match
arms are tried top to bottom, like the regex alternatives). -/
def matchOpAt : List Char → Option (String × List Char)
  | '<' :: '=' :: rest => some ("<=", rest)
  | '<' :: rest => some ("<", rest)
  | '>' :: '=' :: rest => some (">=", rest)
  | '>' :: rest => some (">", rest)
  | '=' :: '=' :: rest => some ("==", rest)
  | '=' :: rest => some ("=", rest)
  | _ => none

/-- Numeric value of a digit character list (the `int(...)` applied to
the matched `\d+` group). -/
def digitsVal (ds : List Char) : Nat :=
  ds.foldl (fun a c => 10 * a + (c.toNat - 48)) 0

/-- Try to match the whole pattern at the head of `cs`. -/
def tryCondAt (cs : List Char) : Option (String × Nat) :=
  match matchPrefixCI "yes_count".data cs with
  | none => none
  | some r1 =>
    let r2 := r1.dropWhile isPySpace
    match matchOpAt r2 with
    | none => none
    | some (op, r3) =>
      let r4 := r3.dropWhile isPySpace
      let ds := r4.takeWhile Char.isDigit
      if ds = [] then none
      else some ((if op = "=" then "==" else op), digitsVal ds)

/-- Leftmost search of the pattern (the `re.search` call). -/
def searchCond : List Char → Option (String × Nat)
  | [] => none
  | c :: cs =>
    match tryCondAt (c :: cs) with
    | some r => some r
    | none => searchCond cs

/-- Embedding of `parse_yescount_condition` (lines 364-377): returns
`(operator, threshold)`, defaulting to `(">=", 1)` for empty or
unparseable strings. -/
def parseYescountCondition (s : String) : String × Nat :=
  let t := pyStrip s
  if t = "" then (">=", 1)
  else
    match searchCond t.data with
    | none => (">=", 1)
    | some r => r

/-- Embedding of `eval_yescount_condition` (lines 379-385). -/
def evalYescountCondition (yesCt : Nat) (op : String) (n : Nat) : Bool :=
  if op = "<" then yesCt < n
  else if op = "<=" then yesCt ≤ n
  else if op = ">" then yesCt > n
  else if op = ">=" then yesCt ≥ n
  else if op = "==" then yesCt = n
  else yesCt ≥ n

/-- The composed show-condition evaluator: parse the condition string,
then compare the given yes count (how lines 464-465 and 510-511 use the
two helpers). -/
def evalCondStr (yesCt : Nat) (s : String) : Bool :=
  evalYescountCondition yesCt (parseYescountCondition s).1
    (parseYescountCondition s).2

/-! ## The availability rule threshold -/

/-- Modelled from the spec: the dynamic yes-count threshold
`requiredYes(dateCount) = 3 if dateCount >= 5 else 2` (spec section 4.3).
This pure function appears in other iterations of the repository that
are not part of src/; src/app_fixed.py obtains the threshold from the
CSV show-condition string instead, and the two are connected in the C1
theorem below. -/
def requiredYes (dateCount : Nat) : Nat :=
  if dateCount ≥ 5 then 3 else 2

/-- Embedding of the submit-time reason validation (lines 506-514):
an error is recorded when the parsed condition holds of the yes count
and the reason answer is falsy or shorter than 5 characters after
stripping. -/
def submitReasonError (answers : List (String × String))
    (depIds : List String) (condStr rv : String) : Bool :=
  evalCondStr (yesCount answers depIds) condStr &&
    (rv == "" || decide ((pyStrip rv).length < 5))

/-! ## Question schema, dependency ids and fallback -/

/-- The fields of a form-question row that the modelled logic reads. -/
structure Question where
  qid : String
  optionsSource : String
  deriving Repr, DecidableEq

/-- The ids of the yes/no availability questions: rows whose
lowercased `Options Source` equals `"yes_no"` (lines 435-437, 474-476). -/
def yesNoIds (qs : List Question) : List String :=
  (qs.filter fun q => pyLower q.optionsSource == "yes_no").map (·.qid)

/-- Splitting at commas, with Python semantics: the empty string
yields one empty part, and consecutive commas yield empty parts
(structural recursion so that the kernel can evaluate it). -/
def splitCommaAux : List Char → List (List Char)
  | [] => [[]]
  | c :: cs =>
    let r := splitCommaAux cs
    if c = ',' then [] :: r
    else
      match r with
      | [] => [[c]]
      | h :: t => (c :: h) :: t

/-- Embedding of the `DependsOn` parsing
`[s.strip() for s in str(x).split(",") if s.strip()]` (lines 455, 507). -/
def splitDeps (s : String) : List String :=
  ((splitCommaAux s.data).map (fun l => pyStrip (String.mk l))).filter
    (· != "")

/-- Dependency ids used at render time (lines 455-462): the parsed
`DependsOn` list, falling back to all yes/no question ids when it is
empty. -/
def renderDepIds (qs : List Question) (dependsOn : String) : List String :=
  if splitDeps dependsOn = [] then yesNoIds qs else splitDeps dependsOn

/-- Dependency ids used at submit time (lines 507-509); textually a
second occurrence of the same fallback. -/
def submitDepIds (qs : List Question) (dependsOn : String) : List String :=
  if splitDeps dependsOn = [] then yesNoIds qs else splitDeps dependsOn

/-- The render-time visibility of the reason question (lines 464-465). -/
def renderShowReason (answers : List (String × String)) (qs : List Question)
    (dependsOn cond : String) : Bool :=
  evalCondStr (yesCount answers (renderDepIds qs dependsOn)) cond

/-- The submit-time reason requirement (lines 510-511). -/
def submitNeedReason (answers : List (String × String)) (qs : List Question)
    (dependsOn cond : String) : Bool :=
  evalCondStr (yesCount answers (submitDepIds qs dependsOn)) cond

/-! ## Header reconciliation (`init_sheet_headers` / `ensure_local_headers`) -/

/-- Embedding of `init_sheet_headers` (lines 222-233).  `existing` is
row 1 of the sheet (`[]` when the sheet is blank); the function returns
the header the sheet holds afterwards. -/
def initSheetHeaders (existing desired : List String) : List String :=
  if existing = [] then desired
  else existing ++ desired.filter fun c => !existing.contains c

/-- Embedding of `ensure_local_headers` (lines 250-265).  `existing` is
the header of the local CSV (`none` when the file does not exist; an
unreadable file behaves as an empty frame with the desired columns and
is covered by the `none` arm up to column values).  When some desired
column is missing the frame is reindexed to exactly `desired`
(`df = df[[c for c in desired_header]]`) and `desired` is returned;
otherwise the existing header is returned unchanged. -/
def ensureLocalHeaders (existing : Option (List String))
    (desired : List String) : List String :=
  match existing with
  | none => desired
  | some cols =>
      if desired.filter (fun c => !cols.contains c) = [] then cols
      else desired

/-! ## Record assembly (labels and the desired header) -/

/-- First-occurrence deduplication with an explicit seen accumulator,
mirroring the `if lbl not in labels_in_use: append` loop
(lines 523-527). -/
def dedupAux {α : Type} [DecidableEq α] (seen : List α) : List α → List α
  | [] => []
  | x :: xs =>
      if x ∈ seen then dedupAux seen xs else x :: dedupAux (x :: seen) xs

/-- The `labels_in_use` list: report labels of the availability
questions in order, duplicates removed by first occurrence. -/
def labelsInUse (lbls : List String) : List String := dedupAux [] lbls

/-- Embedding of the `desired_header` assembly (line 548). -/
def desiredHeader (lbls : List String) : List String :=
  ["timestamp", "Director", "Serving Girl", "Reason"] ++ labelsInUse lbls

/-- Python `str.title()` restricted to what the source applies it to
(`(answers.get(qid) or "").title()`, line 545): uppercase an alphabetic
character that follows a non-alphabetic one, lowercase the rest. -/
def pyTitleGo : Bool → List Char → List Char
  | _, [] => []
  | prevAlpha, c :: cs =>
      (if c.isAlpha then (if prevAlpha then c.toLower else c.toUpper) else c)
        :: pyTitleGo c.isAlpha cs

/-- Python `str.title()`. -/
def pyTitle (s : String) : String := String.mk (pyTitleGo false s.data)

/-! ## Retry wrapper (`gs_retry`) -/

/-- Outcome of one underlying gspread call. -/
inductive GsCall (α : Type) : Type
  | ok (v : α)
  | apiError (status : Nat)
  | otherError
  deriving Repr, DecidableEq

/-- Result of the whole `gs_retry` wrapper: a returned value, a
re-raised exception, or falling off the loop (Python returns `None`). -/
inductive GsOutcome (α : Type) : Type
  | value (v : α)
  | raisedApi (status : Nat)
  | raisedOther
  | swallowed
  deriving Repr, DecidableEq

/-- The transient statuses retried by `gs_retry` (line 204). -/
def transientStatus (s : Nat) : Bool :=
  s = 429 || s = 500 || s = 502 || s = 503

/-- Embedding of the `for attempt in range(5)` loop of `gs_retry`
(lines 197-207).  `f k` is the behaviour of the wrapped call on attempt
`k`, `j k` the value of `random.random()` there; the second component
records the durations passed to `time.sleep`. -/
def gsRetryGo {α : Type} (f : Nat → GsCall α) (j : Nat → ℚ) :
    Nat → Nat → GsOutcome α × List ℚ
  | 0, _ => (.swallowed, [])
  | fuel + 1, k =>
    match f k with
    | .ok v => (.value v, [])
    | .otherError => (.raisedOther, [])
    | .apiError s =>
        if transientStatus s then
          let r := gsRetryGo f j fuel (k + 1)
          (r.1, min 10 ((2 : ℚ) ^ k + j k) :: r.2)
        else (.raisedApi s, [])

/-- `gs_retry` itself: five attempts starting at attempt 0. -/
def gsRetry {α : Type} (f : Nat → GsCall α) (j : Nat → ℚ) :
    GsOutcome α × List ℚ :=
  gsRetryGo f j 5 0

/-! ## Deadline gate (no deadline code exists in src/app_fixed.py) -/

/-- Modelled from the spec: the deadline table lookup of spec section
4.4 — at most one row per month is consulted, first match wins.  Time
is modelled as minutes on a linear local clock (`Int`).  Missing from
src/: app_fixed.py contains no deadline or month-window logic at all. -/
def deadlineFor (rows : List (String × Int)) (month : String) : Option Int :=
  (rows.find? fun r => r.1 = month).map (·.2)

/-- Modelled from the spec: the `Closed` state of the deadline gate
(spec section 4.4) — closed when no deadline row exists for the target
month or the current local time has reached the deadline (inclusive
boundary). -/
def gateClosed (rows : List (String × Int)) (month : String) (now : Int) :
    Bool :=
  match deadlineFor rows month with
  | none => true
  | some d => decide (d ≤ now)

/-- Modelled from the spec: the submit-time re-check — a submission is
accepted only if the gate is open at the submission instant, regardless
of the render instant. -/
def submitGateAccepts (rows : List (String × Int)) (month : String)
    (renderNow submitNow : Int) : Bool :=
  !gateClosed rows month submitNow

/-! ## Submit validation and persistence (lines 490-564) -/

/-- The reason question row as the submit handler sees it. -/
structure ReasonSpec where
  qid : String
  dependsOn : String
  showCondition : String
  deriving Repr, DecidableEq

/-- The availability questions left unanswered (lines 497-501). -/
def availUnanswered (answers : List (String × String))
    (availIds : List String) : List String :=
  availIds.filter fun q => getAns answers q == ""

/-- Whether the reason answer fails the length check (line 513):
falsy, or fewer than 5 characters once stripped. -/
def reasonBad (answers : List (String × String)) (r : ReasonSpec) : Bool :=
  getAns answers r.qid == "" ||
    decide ((pyStrip (getAns answers r.qid)).length < 5)

/-- Embedding of the submit-time validation (lines 490-514): the
collected error messages, in the order the source records them. -/
def submitErrors (answers : List (String × String)) (qs : List Question)
    (reason : Option ReasonSpec) : List String :=
  (if getAns answers "Q1" = "" then ["Please select a director."] else []) ++
  (if getAns answers "Q2" = "" then ["Please select your name."] else []) ++
  (if availUnanswered answers (yesNoIds qs) ≠ [] then
    ["Please answer all availability items."] else []) ++
  (match reason with
   | none => []
   | some r =>
     if submitNeedReason answers qs r.dependsOn r.showCondition &&
         reasonBad answers r then
       ["Please provide a brief reason (at least 5 characters)."]
     else [])

/-- Embedding of the submit handler's effect on the store (lines
516-562): when any validation error exists the errors are displayed and
the store is untouched; otherwise the assembled row is appended. -/
def submitStore (store : List (List String))
    (answers : List (String × String)) (qs : List Question)
    (reason : Option ReasonSpec) (row : List String) : List (List String) :=
  if submitErrors answers qs reason ≠ [] then store else store ++ [row]

/-! ## Non-responder report (`compute_nonresponders`, lines 645-676) -/

/-- One row of the responses store as the report reads it: the two
identifying columns plus the timestamp after
`pd.to_datetime(..., errors="coerce")` (`none` models `NaT`, a
timestamp that failed to parse). -/
structure RespRow where
  director : String
  girl : String
  ts : Option Nat
  deriving Repr, DecidableEq

/-- The `.str.strip()` applied to the identifying columns
(lines 666-667). -/
def stripRow (r : RespRow) : RespRow :=
  ⟨pyStrip r.director, pyStrip r.girl, r.ts⟩

/-- The cleaned roster (lines 648-651): strip both columns, drop rows
with an empty entry, drop duplicate pairs keeping the first. -/
def cleanRoster (roster : List (String × String)) : List (String × String) :=
  dedupAux []
    ((roster.map fun p => (pyStrip p.1, pyStrip p.2)).filter
      fun p => p.1 != "" && p.2 != "")

/-- The sort key of `sort_values("Last submission")`: timestamps
ascending, `NaT` last (pandas `na_position="last"`). -/
def tsLe (a b : Option Nat) : Bool :=
  match a, b with
  | some x, some y => x ≤ y
  | some _, none => true
  | none, none => true
  | none, some _ => false

/-- The sort relation on response rows. -/
def RLe (a b : RespRow) : Prop := tsLe a.ts b.ts = true

instance : DecidableRel RLe := fun a b => by
  unfold RLe; infer_instance

instance : IsTotal RespRow RLe where
  total a b := by
    unfold RLe tsLe
    rcases a.ts with _ | x <;> rcases b.ts with _ | y <;> simp
    omega

instance : IsTrans RespRow RLe where
  trans a b c := by
    unfold RLe tsLe
    rcases a.ts with _ | x <;> rcases b.ts with _ | y <;>
      rcases c.ts with _ | z <;> simp
    omega

/-- The response rows for one roster pair, after stripping
(the rows that `drop_duplicates(subset=["Director","Serving Girl"])`
groups together). -/
def pairRows (responses : List RespRow) (p : String × String) :
    List RespRow :=
  (responses.map stripRow).filter fun r =>
    r.director == p.1 && r.girl == p.2

/-- The stripped responses sorted by timestamp, `NaT` last
(line 671; pandas uses an unstable quicksort, and every property proved
below is independent of how ties are broken). -/
def sortResp (responses : List RespRow) : List RespRow :=
  List.insertionSort RLe (responses.map stripRow)

/-- The timestamp of the row `keep="last"` retains for a pair: the last
row of the pair's group in sorted order.  `none` when the pair has no
row at all. -/
def keptTs (responses : List RespRow) (p : String × String) :
    Option (Option Nat) :=
  (((sortResp responses).filter fun r =>
      r.director == p.1 && r.girl == p.2).getLast?).map (·.ts)

/-- Whether the merge marks the pair as responded
(`merged["Last submission"].notna()`, line 674). -/
def responded (responses : List RespRow) (p : String × String) : Bool :=
  match keptTs responses p with
  | some (some _) => true
  | _ => false

/-- The final ordering of the report,
`sort_values(["Director", "Serving Girl"])`. -/
def PairLe (p q : String × String) : Prop :=
  p.1 < q.1 ∨ (p.1 = q.1 ∧ p.2 ≤ q.2)

instance : DecidableRel PairLe := fun p q => by
  unfold PairLe; infer_instance

/-- Embedding of `compute_nonresponders` (lines 645-676), restricted to
the `["Director", "Serving Girl"]` projection the report displays: the
cleaned roster pairs not marked as responded.  With an empty responses
frame the source returns the whole cleaned roster unsorted
(lines 653-657). -/
def computeNonresponders (roster : List (String × String))
    (responses : List RespRow) : List (String × String) :=
  if responses = [] then cleanRoster roster
  else
    List.insertionSort PairLe
      ((cleanRoster roster).filter fun p => !responded responses p)

/-! ## Helper lemmas about the condition parser -/

lemma not_isPySpace_of_isDigit (c : Char) (h : c.isDigit = true) :
    isPySpace c = false := by
  have h0 : '0' ≤ c ∧ c ≤ '9' := by simpa [Char.isDigit] using h
  simp only [isPySpace, Bool.or_eq_false_iff, decide_eq_false_iff_not]
  refine ⟨⟨⟨⟨⟨?_, ?_⟩, ?_⟩, ?_⟩, ?_⟩, ?_⟩ <;>
    (rintro rfl; exact absurd h0.1 (by decide))

lemma dropWhile_eq_self_of_all (p : Char → Bool) (l : List Char)
    (h : ∀ c ∈ l, p c = false) : l.dropWhile p = l := by
  cases l with
  | nil => rfl
  | cons a t => simp [List.dropWhile_cons, h a (by simp)]

lemma stripList_eq_self (l : List Char) (h : ∀ c ∈ l, isPySpace c = false) :
    stripList l = l := by
  unfold stripList
  rw [dropWhile_eq_self_of_all _ _ h,
      dropWhile_eq_self_of_all _ _ (by simpa using h), List.reverse_reverse]

lemma takeWhile_digits_eq_self (ds : List Char)
    (h : ∀ c ∈ ds, c.isDigit = true) :
    ds.takeWhile Char.isDigit = ds := List.takeWhile_eq_self_iff.mpr h

lemma matchPrefixCI_yescount (rest : List Char) :
    matchPrefixCI "yes_count".data ("yes_count".data ++ rest) = some rest := rfl

lemma matchOpAt_lt (d : Char) (rest : List Char) (h : d ≠ '=') :
    matchOpAt ('<' :: d :: rest) = some ("<", d :: rest) := by
  rw [matchOpAt.eq_def]; split <;> simp_all

lemma matchOpAt_gt (d : Char) (rest : List Char) (h : d ≠ '=') :
    matchOpAt ('>' :: d :: rest) = some (">", d :: rest) := by
  rw [matchOpAt.eq_def]; split <;> simp_all

lemma ne_eq_of_isDigit (d : Char) (h : d.isDigit = true) : d ≠ '=' := by
  rintro rfl; exact absurd h (by decide)

/-- Processing after the operator has matched: skip spaces (none, the
input is all digits), take the digits, convert. -/
lemma condAfterOp (ds : List Char) (hne : ds ≠ [])
    (h : ∀ c ∈ ds, c.isDigit = true) (op : String) (hop : op ≠ "=") :
    (if (ds.dropWhile isPySpace).takeWhile Char.isDigit = [] then none
     else some ((if op = "=" then "==" else op),
       digitsVal ((ds.dropWhile isPySpace).takeWhile Char.isDigit)))
      = some (op, digitsVal ds) := by
  have h4 : ds.dropWhile isPySpace = ds :=
    dropWhile_eq_self_of_all _ _ fun c hc => not_isPySpace_of_isDigit c (h c hc)
  rw [h4, takeWhile_digits_eq_self ds h]
  simp [hne, hop]

lemma searchCond_of_tryCondAt (l : List Char) (r : String × Nat)
    (hl : l ≠ []) (h : tryCondAt l = some r) : searchCond l = some r := by
  cases l with
  | nil => exact absurd rfl hl
  | cons c cs => simp [searchCond, h]

lemma noSpace_yescountChars : ∀ c ∈ "yes_count".data, isPySpace c = false := by
  decide

/-- The generic shape of a successful parse of a full-form condition
string: for `opChars` one of the five operator spellings followed by a
digit string, the stripped string is unchanged and the scan succeeds at
position 0. -/
lemma parse_of_data (s : String) (opChars : List Char) (opName : String)
    (ds : List Char) (hdata : s.data = "yes_count".data ++ (opChars ++ ds))
    (hne : ds ≠ []) (hdig : ∀ c ∈ ds, c.isDigit = true)
    (hopsp : ∀ c ∈ opChars, isPySpace c = false)
    (hmatch : matchOpAt (opChars ++ ds) = some (opName, ds))
    (hop : opName ≠ "=") :
    parseYescountCondition s = (opName, digitsVal ds) := by
  have hnosp : ∀ c ∈ s.data, isPySpace c = false := by
    intro c hc
    rw [hdata] at hc
    rcases List.mem_append.mp hc with hc | hc
    · exact noSpace_yescountChars c hc
    rcases List.mem_append.mp hc with hc | hc
    · exact hopsp c hc
    · exact not_isPySpace_of_isDigit c (hdig c hc)
  have hstrip : pyStrip s = s := by
    show String.mk (stripList s.data) = s
    rw [stripList_eq_self s.data hnosp]
  have hsne : s ≠ "" := by
    intro h0
    rw [h0] at hdata
    exact absurd hdata.symm (by simp)
  have htry : tryCondAt s.data = some (opName, digitsVal ds) := by
    rw [hdata]
    show (match matchPrefixCI "yes_count".data
        ("yes_count".data ++ (opChars ++ ds)) with
      | none => none
      | some r1 =>
        match matchOpAt (r1.dropWhile isPySpace) with
        | none => none
        | some (op, r3) =>
          if (r3.dropWhile isPySpace).takeWhile Char.isDigit = [] then none
          else some ((if op = "=" then "==" else op),
            digitsVal ((r3.dropWhile isPySpace).takeWhile Char.isDigit)))
      = some (opName, digitsVal ds)
    rw [matchPrefixCI_yescount]
    have hops : (opChars ++ ds).dropWhile isPySpace = opChars ++ ds := by
      refine dropWhile_eq_self_of_all _ _ fun c hc => ?_
      rcases List.mem_append.mp hc with hc | hc
      · exact hopsp c hc
      · exact not_isPySpace_of_isDigit c (hdig c hc)
    show (match matchOpAt ((opChars ++ ds).dropWhile isPySpace) with
      | none => none
      | some (op, r3) =>
        if (r3.dropWhile isPySpace).takeWhile Char.isDigit = [] then none
        else some ((if op = "=" then "==" else op),
          digitsVal ((r3.dropWhile isPySpace).takeWhile Char.isDigit)))
      = some (opName, digitsVal ds)
    rw [hops, hmatch]
    show (if (ds.dropWhile isPySpace).takeWhile Char.isDigit = [] then none
      else some ((if opName = "=" then "==" else opName),
        digitsVal ((ds.dropWhile isPySpace).takeWhile Char.isDigit)))
      = some (opName, digitsVal ds)
    exact condAfterOp ds hne hdig opName hop
  have hsearch : searchCond s.data = some (opName, digitsVal ds) :=
    searchCond_of_tryCondAt _ _ (by rw [hdata]; simp) htry
  unfold parseYescountCondition
  rw [hstrip]
  simp [hsne, hsearch]

lemma parse_lt (ds : List Char) (hne : ds ≠ [])
    (hdig : ∀ c ∈ ds, c.isDigit = true) :
    parseYescountCondition ("yes_count<" ++ String.mk ds)
      = ("<", digitsVal ds) := by
  refine parse_of_data _ ['<'] "<" ds ?_ hne hdig (by decide) ?_ (by decide)
  · rw [String.data_append]; rfl
  · cases ds with
    | nil => exact absurd rfl hne
    | cons d rest =>
        exact matchOpAt_lt d rest (ne_eq_of_isDigit d (hdig d (by simp)))

lemma parse_le (ds : List Char) (hne : ds ≠ [])
    (hdig : ∀ c ∈ ds, c.isDigit = true) :
    parseYescountCondition ("yes_count<=" ++ String.mk ds)
      = ("<=", digitsVal ds) := by
  refine parse_of_data _ ['<', '='] "<=" ds ?_ hne hdig (by decide) rfl
    (by decide)
  rw [String.data_append]; rfl

lemma parse_gt (ds : List Char) (hne : ds ≠ [])
    (hdig : ∀ c ∈ ds, c.isDigit = true) :
    parseYescountCondition ("yes_count>" ++ String.mk ds)
      = (">", digitsVal ds) := by
  refine parse_of_data _ ['>'] ">" ds ?_ hne hdig (by decide) ?_ (by decide)
  · rw [String.data_append]; rfl
  · cases ds with
    | nil => exact absurd rfl hne
    | cons d rest =>
        exact matchOpAt_gt d rest (ne_eq_of_isDigit d (hdig d (by simp)))

lemma parse_ge (ds : List Char) (hne : ds ≠ [])
    (hdig : ∀ c ∈ ds, c.isDigit = true) :
    parseYescountCondition ("yes_count>=" ++ String.mk ds)
      = (">=", digitsVal ds) := by
  refine parse_of_data _ ['>', '='] ">=" ds ?_ hne hdig (by decide) rfl
    (by decide)
  rw [String.data_append]; rfl

lemma parse_eqeq (ds : List Char) (hne : ds ≠ [])
    (hdig : ∀ c ∈ ds, c.isDigit = true) :
    parseYescountCondition ("yes_count==" ++ String.mk ds)
      = ("==", digitsVal ds) := by
  refine parse_of_data _ ['=', '='] "==" ds ?_ hne hdig (by decide) rfl
    (by decide)
  rw [String.data_append]; rfl

lemma parse_default (s : String)
    (h : searchCond (stripList s.data) = none) :
    parseYescountCondition s = (">=", 1) := by
  unfold parseYescountCondition
  by_cases h0 : pyStrip s = ""
  · simp [h0]
  · have hd : (pyStrip s).data = stripList s.data := rfl
    simp [h0, hd, h]

lemma evalCondStr_of_parse (yct : Nat) (s : String) (op : String) (n : Nat)
    (h : parseYescountCondition s = (op, n)) :
    evalCondStr yct s = evalYescountCondition yct op n := by
  unfold evalCondStr; rw [h]

/-! ## Helper lemmas about first-occurrence deduplication -/

lemma mem_dedupAux {α : Type} [DecidableEq α] (seen l : List α) (x : α) :
    x ∈ dedupAux seen l ↔ x ∈ l ∧ x ∉ seen := by
  induction l generalizing seen with
  | nil => simp [dedupAux]
  | cons a t ih =>
    by_cases h : a ∈ seen
    · rw [show dedupAux seen (a :: t) = dedupAux seen t from by
        simp [dedupAux, h]]
      rw [ih]
      simp only [List.mem_cons]
      constructor
      · rintro ⟨h1, h2⟩; exact ⟨Or.inr h1, h2⟩
      · rintro ⟨h1 | h1, h2⟩
        · exact absurd (h1 ▸ h) h2
        · exact ⟨h1, h2⟩
    · rw [show dedupAux seen (a :: t) = a :: dedupAux (a :: seen) t from by
        simp [dedupAux, h]]
      simp only [List.mem_cons, ih, List.mem_cons]
      constructor
      · rintro (rfl | ⟨h1, h2⟩)
        · exact ⟨Or.inl rfl, h⟩
        · exact ⟨Or.inr h1, fun hx => h2 (Or.inr hx)⟩
      · rintro ⟨rfl | h1, h2⟩
        · exact Or.inl rfl
        · by_cases hxa : x = a
          · exact Or.inl hxa
          · exact Or.inr ⟨h1, fun hx => (by
              rcases hx with hx | hx
              · exact hxa hx
              · exact h2 hx)⟩

lemma dedupAux_sublist {α : Type} [DecidableEq α] (seen l : List α) :
    List.Sublist (dedupAux seen l) l := by
  induction l generalizing seen with
  | nil => simp [dedupAux]
  | cons a t ih =>
    by_cases h : a ∈ seen
    · rw [show dedupAux seen (a :: t) = dedupAux seen t from by
        simp [dedupAux, h]]
      exact (ih seen).trans (List.sublist_cons_self a t)
    · rw [show dedupAux seen (a :: t) = a :: dedupAux (a :: seen) t from by
        simp [dedupAux, h]]
      exact (ih (a :: seen)).cons₂ a

lemma dedupAux_nodup {α : Type} [DecidableEq α] (seen l : List α) :
    (dedupAux seen l).Nodup := by
  induction l generalizing seen with
  | nil => simp [dedupAux]
  | cons a t ih =>
    by_cases h : a ∈ seen
    · simpa [dedupAux, h] using ih seen
    · rw [show dedupAux seen (a :: t) = a :: dedupAux (a :: seen) t from by
        simp [dedupAux, h]]
      refine List.nodup_cons.mpr ⟨?_, ih (a :: seen)⟩
      rw [mem_dedupAux]
      rintro ⟨-, h2⟩
      exact h2 (by simp)

/-! ## Claim theorems -/

/-- Claim C3: on every condition string of the literal form
yes_count(op)N — with N a nonempty digit string — the show-condition
evaluator returns exactly the corresponding comparison of the yes count
against N, for each of the five operators; and on every string the
scanner fails to parse (the empty string included) it behaves as
yes_count>=1. -/
theorem C3_show_condition_eval (yct : Nat) (ds : List Char) (s : String)
    (hne : ds ≠ []) (hdig : ∀ c ∈ ds, c.isDigit = true)
    (hnoparse : searchCond (stripList s.data) = none) :
    evalCondStr yct ("yes_count<" ++ String.mk ds)
      = decide (yct < digitsVal ds) ∧
    evalCondStr yct ("yes_count<=" ++ String.mk ds)
      = decide (yct ≤ digitsVal ds) ∧
    evalCondStr yct ("yes_count>" ++ String.mk ds)
      = decide (yct > digitsVal ds) ∧
    evalCondStr yct ("yes_count>=" ++ String.mk ds)
      = decide (yct ≥ digitsVal ds) ∧
    evalCondStr yct ("yes_count==" ++ String.mk ds)
      = decide (yct = digitsVal ds) ∧
    evalCondStr yct s = decide (yct ≥ 1) := by
  refine ⟨?_, ?_, ?_, ?_, ?_, ?_⟩
  · rw [evalCondStr_of_parse _ _ _ _ (parse_lt ds hne hdig)]; rfl
  · rw [evalCondStr_of_parse _ _ _ _ (parse_le ds hne hdig)]; rfl
  · rw [evalCondStr_of_parse _ _ _ _ (parse_gt ds hne hdig)]; rfl
  · rw [evalCondStr_of_parse _ _ _ _ (parse_ge ds hne hdig)]; rfl
  · rw [evalCondStr_of_parse _ _ _ _ (parse_eqeq ds hne hdig)]; rfl
  · rw [evalCondStr_of_parse _ _ _ _ (parse_default s hnoparse)]; rfl

/-- Witness for C3 at a concrete operator string and the unparseable
string from the spec's scenario. -/
theorem C3_show_condition_eval_witness :
    evalCondStr 1 ("yes_count<" ++ String.mk ['2'])
      = decide ((1 : Nat) < digitsVal ['2']) ∧
    evalCondStr 1 "foobar" = decide ((1 : Nat) ≥ 1) := by
  have h := C3_show_condition_eval 1 ['2'] "foobar" (by decide) (by decide)
    (by decide)
  exact ⟨h.1, h.2.2.2.2.2⟩

/-- Claim C2 counterexample: the local-CSV backend drops an existing
column that is absent from the desired header — with existing header
[timestamp, Legacy] and desired header [timestamp, Director], the
reconciled header no longer contains Legacy. -/
theorem C2_local_header_drops_column :
    "Legacy" ∈ ["timestamp", "Legacy"] ∧
    ensureLocalHeaders (some ["timestamp", "Legacy"])
      ["timestamp", "Director"] = ["timestamp", "Director"] ∧
    "Legacy" ∉ ensureLocalHeaders (some ["timestamp", "Legacy"])
      ["timestamp", "Director"] := by
  refine ⟨by decide, by decide, by decide⟩

/-- Claim C2 (amended): the Sheets backend is append-only — every
existing column survives reconciliation and missing desired columns are
appended after the existing header; the local-CSV backend keeps the
existing header unchanged only when no desired column is missing, and
otherwise returns exactly the desired header, dropping existing columns
that are not in it. -/
theorem C2_header_reconciliation (existing desired cols : List String)
    (c : String) (hne : existing ≠ []) :
    (c ∈ existing → c ∈ initSheetHeaders existing desired) ∧
    initSheetHeaders existing desired
      = existing ++ desired.filter (fun d => !existing.contains d) ∧
    ((∀ d ∈ desired, cols.contains d) →
      ensureLocalHeaders (some cols) desired = cols) ∧
    ((∃ d ∈ desired, ¬ cols.contains d) →
      ensureLocalHeaders (some cols) desired = desired) := by
  refine ⟨?_, ?_, ?_, ?_⟩
  · intro hc
    unfold initSheetHeaders
    rw [if_neg hne]
    exact List.mem_append_left _ hc
  · unfold initSheetHeaders
    rw [if_neg hne]
  · intro hall
    show (if List.filter (fun c => !cols.contains c) desired = [] then cols
      else desired) = cols
    rw [if_pos]
    rw [List.filter_eq_nil_iff]
    intro d hd
    have hc2 := hall d hd
    simp_all
  · rintro ⟨d, hd, hmiss⟩
    show (if List.filter (fun c => !cols.contains c) desired = [] then cols
      else desired) = desired
    rw [if_neg]
    intro hnil
    rw [List.filter_eq_nil_iff] at hnil
    have hc2 := hnil d hd
    simp_all

/-- Witness for C2 at concrete headers for all four parts. -/
theorem C2_header_reconciliation_witness :
    "Old" ∈ initSheetHeaders ["timestamp", "Old"] ["timestamp", "Director"] ∧
    initSheetHeaders ["timestamp", "Old"] ["timestamp", "Director"]
      = ["timestamp", "Old"] ++ ["timestamp", "Director"].filter
          (fun d => !(["timestamp", "Old"].contains d)) ∧
    ensureLocalHeaders (some ["timestamp", "Director"])
      ["timestamp", "Director"] = ["timestamp", "Director"] ∧
    ensureLocalHeaders (some ["timestamp", "Old"]) ["timestamp", "Director"]
      = ["timestamp", "Director"] := by
  have h1 := C2_header_reconciliation ["timestamp", "Old"]
    ["timestamp", "Director"] ["timestamp", "Director"] "Old" (by decide)
  have h2 := C2_header_reconciliation ["timestamp", "Old"]
    ["timestamp", "Director"] ["timestamp", "Old"] "Old" (by decide)
  exact ⟨h1.1 (by decide), h1.2.1, h1.2.2.1 (by decide),
    h2.2.2.2 ⟨"Director", by decide, by decide⟩⟩

/-- Claim C5 (spec-modelled: src/app_fixed.py has no deadline code):
the gate is Closed when no deadline row exists for the target month or
the current time has reached the deadline, the boundary instant being
Closed; and because the check runs again at submit time, a session
rendered while open is still rejected once the deadline passes. -/
theorem C5_deadline_gate (rows : List (String × Int)) (month : String)
    (now d renderNow submitNow : Int) :
    (deadlineFor rows month = none → gateClosed rows month now = true) ∧
    (deadlineFor rows month = some d →
      (gateClosed rows month now = true ↔ d ≤ now)) ∧
    (deadlineFor rows month = some d → gateClosed rows month d = true) ∧
    (deadlineFor rows month = some d → renderNow < d → d ≤ submitNow →
      gateClosed rows month renderNow = false ∧
      submitGateAccepts rows month renderNow submitNow = false) := by
  refine ⟨fun h => ?_, fun h => ?_, fun h => ?_, fun h h1 h2 => ⟨?_, ?_⟩⟩ <;>
    simp [gateClosed, submitGateAccepts, h] <;> omega

/-- Witness for C5 at a concrete deadline table. -/
theorem C5_deadline_gate_witness :
    gateClosed [("2025-12", 100)] "2026-01" 0 = true ∧
    gateClosed [("2025-12", 100)] "2025-12" 100 = true ∧
    gateClosed [("2025-12", 100)] "2025-12" 99 = false ∧
    submitGateAccepts [("2025-12", 100)] "2025-12" 99 100 = false := by
  have h1 := C5_deadline_gate [("2025-12", 100)] "2026-01" 0 0 0 0
  have h2 := C5_deadline_gate [("2025-12", 100)] "2025-12" 100 100 99 100
  exact ⟨h1.1 (by decide), h2.2.2.1 (by decide),
    (h2.2.2.2 (by decide) (by decide) (by decide)).1,
    (h2.2.2.2 (by decide) (by decide) (by decide)).2⟩

/-- Claim C6, evaluated at the failing input: when every attempt raises
a transient APIError 429, gs_retry performs its five attempts with
sleeps min(10, 2^attempt + jitter) — here jitter 0, so 1, 2, 4, 8, 10 —
and then falls off the loop returning None (`swallowed`): no error
reaches the caller, contradicting the claim that exhaustion surfaces as
fatal.  A non-transient status is re-raised immediately, and a success
after transient failures returns the value. -/
theorem C6_retry_exhaustion_swallowed :
    gsRetry (fun _ => GsCall.apiError (α := Nat) 429) (fun _ => 0)
      = (GsOutcome.swallowed, [1, 2, 4, 8, 10]) ∧
    gsRetry (fun _ => GsCall.apiError (α := Nat) 401) (fun _ => 0)
      = (GsOutcome.raisedApi 401, []) ∧
    gsRetry (fun k => if k = 0 then GsCall.apiError (α := Nat) 500
      else .ok 7) (fun _ => 0) = (GsOutcome.value 7, [1]) := by
  refine ⟨?_, ?_, ?_⟩ <;> simp [gsRetry, gsRetryGo, transientStatus] <;>
    norm_num

/-- Claim C7 counterexample: the assembled output header has no
availability-month column — with one date label it is exactly
[timestamp, Director, Serving Girl, Reason, label], not the claimed
[timestamp, Availability month, Director, Serving Girl, Reason, label]. -/
theorem C7_header_no_month_column :
    desiredHeader ["5 December"]
      = ["timestamp", "Director", "Serving Girl", "Reason", "5 December"] ∧
    "Availability month" ∉ desiredHeader ["5 December"] ∧
    desiredHeader ["5 December"]
      ≠ ["timestamp", "Availability month", "Director", "Serving Girl",
         "Reason", "5 December"] := by
  refine ⟨rfl, by decide, by decide⟩

/-- Claim C7 (amended): the desired output header is exactly
[timestamp, Director, Serving Girl, Reason] followed by the date labels
in order of first occurrence with duplicates removed (no
availability-month column), and the stored date values are the
title-cased Yes/No answers. -/
theorem C7_output_header_shape (lbls : List String) (x : String) :
    desiredHeader lbls
      = ["timestamp", "Director", "Serving Girl", "Reason"]
          ++ labelsInUse lbls ∧
    (labelsInUse lbls).Nodup ∧
    List.Sublist (labelsInUse lbls) lbls ∧
    (x ∈ labelsInUse lbls ↔ x ∈ lbls) ∧
    pyTitle "Yes" = "Yes" ∧ pyTitle "No" = "No" ∧
    pyTitle "yes" = "Yes" ∧ pyTitle "nO" = "No" := by
  refine ⟨rfl, dedupAux_nodup _ _, dedupAux_sublist _ _, ?_,
    rfl, rfl, rfl, rfl⟩
  rw [labelsInUse, mem_dedupAux]
  simp

/-- Claim C1: the reason requirement follows the dynamic threshold rule
(requiredYes(n) = 3 if n >= 5 else 2, with the quoted test values),
yesCount counts case-insensitive "Yes" answers, and — composing the
spec-modelled requiredYes with the source's condition parser and
submit validation — the reason error fires exactly when the yes count
is below requiredYes(number of dates) and the reason has fewer than 5
characters after stripping. -/
theorem C1_dynamic_reason_threshold (n : Nat)
    (answers : List (String × String)) (depIds : List String) (rv : String) :
    (requiredYes 4 = 2 ∧ requiredYes 5 = 3 ∧ requiredYes 9 = 3 ∧
      requiredYes 0 = 2) ∧
    (submitReasonError answers depIds
        ("yes_count<" ++ toString (requiredYes n)) rv = true ↔
      (yesCount answers depIds < requiredYes n ∧ (pyStrip rv).length < 5)) := by
  refine ⟨⟨rfl, rfl, rfl, rfl⟩, ?_⟩
  have hbad : (rv == "" || decide ((pyStrip rv).length < 5))
      = decide ((pyStrip rv).length < 5) := by
    by_cases h : rv = ""
    · subst h; rfl
    · simp [h]
  unfold submitReasonError
  rw [hbad]
  by_cases h5 : n ≥ 5
  · have hr : requiredYes n = 3 := by simp [requiredYes, h5]
    rw [hr, show (toString (3 : Nat)) = String.mk ['3'] from rfl,
      evalCondStr_of_parse _ _ _ _ (parse_lt ['3'] (by decide) (by decide))]
    show (decide (yesCount answers depIds < 3) && _) = true ↔ _
    simp
  · have hr : requiredYes n = 2 := by simp [requiredYes, h5]
    rw [hr, show (toString (2 : Nat)) = String.mk ['2'] from rfl,
      evalCondStr_of_parse _ _ _ _ (parse_lt ['2'] (by decide) (by decide))]
    show (decide (yesCount answers depIds < 2) && _) = true ↔ _
    simp

/-- Claim C4: schema loading errs exactly when a required column is
missing after normalization, the error message enumerates every missing
required column (joined sorted), and normalization tolerates
non-breaking spaces, trailing whitespace and mixed case. -/
theorem C4_schema_error_iff_missing (cols required : List String)
    (r : String) :
    (loadCheck cols required = none ↔
      ∀ q ∈ required, ∃ c ∈ cols, normCol c = normCol q) ∧
    (r ∈ missingCols cols required ↔
      r ∈ required ∧ ¬ ∃ c ∈ cols, normCol c = normCol r) ∧
    (∀ msg, loadCheck cols required = some msg →
      msg = String.intercalate ", "
        (List.insertionSort (· ≤ ·) (missingCols cols required)) ∧
      ∀ q, q ∈ List.insertionSort (· ≤ ·) (missingCols cols required) ↔
        q ∈ missingCols cols required) ∧
    normCol ("QuestionID" ++ String.mk [nbspChar]) = normCol "questionid" ∧
    normCol "Show Condition  " = normCol "show condition" ∧
    normCol ("Options" ++ String.mk [zwspChar] ++ " Source")
      = normCol "OPTIONS SOURCE" := by
  have hmiss : missingCols cols required = [] ↔
      ∀ q ∈ required, ∃ c ∈ cols, normCol c = normCol q := by
    unfold missingCols
    rw [List.filter_eq_nil_iff]
    constructor
    · intro h q hq
      have h2 := h q hq
      simpa [List.any_eq_true] using h2
    · intro h q hq
      simpa [List.any_eq_true] using h q hq
  refine ⟨?_, ?_, ?_, by decide, by decide, by decide⟩
  · unfold loadCheck
    by_cases hm : missingCols cols required = []
    · rw [if_pos hm]
      exact iff_of_true rfl (hmiss.mp hm)
    · rw [if_neg hm]
      exact iff_of_false (by simp) fun hAll => hm (hmiss.mpr hAll)
  · unfold missingCols
    rw [List.mem_filter]
    simp [List.any_eq_true]
  · intro msg hmsg
    unfold loadCheck at hmsg
    by_cases hm : missingCols cols required = []
    · rw [if_pos hm] at hmsg
      exact absurd hmsg (by simp)
    · rw [if_neg hm] at hmsg
      exact ⟨(Option.some.inj hmsg).symm, fun q => List.mem_insertionSort _⟩

/-- Witness for C4: a table whose only deviation is a trailing
non-breaking space loads cleanly, and a genuinely missing column is
reported in the message. -/
theorem C4_schema_error_iff_missing_witness :
    loadCheck [String.mk ("QuestionID".data ++ [nbspChar]), "questiontext"]
      ["QuestionID", "QuestionText"] = none ∧
    ("DependsOn" = String.intercalate ", " (List.insertionSort (· ≤ ·)
      (missingCols ["QuestionID"] ["QuestionID", "DependsOn"]))) := by
  have h1 := C4_schema_error_iff_missing
    [String.mk ("QuestionID".data ++ [nbspChar]), "questiontext"]
    ["QuestionID", "QuestionText"] "QuestionID"
  have h2 := C4_schema_error_iff_missing ["QuestionID"]
    ["QuestionID", "DependsOn"] "DependsOn"
  refine ⟨h1.1.mpr ?_, ((h2.2.2.1 "DependsOn" (by decide)).1)⟩
  intro q hq
  simp only [List.mem_cons, List.not_mem_nil, or_false] at hq
  rcases hq with rfl | rfl
  · exact ⟨String.mk ("QuestionID".data ++ [nbspChar]), by simp, by decide⟩
  · exact ⟨"questiontext", by simp, by decide⟩

/-- Claim C8: when the reason question's dependsOn list parses to
empty, both the render-time and the submit-time evaluation fall back to
the full set of yes/no availability question ids. -/
theorem C8_empty_dependson_fallback (answers : List (String × String))
    (qs : List Question) (dependsOn cond : String)
    (h : splitDeps dependsOn = []) :
    renderDepIds qs dependsOn = yesNoIds qs ∧
    submitDepIds qs dependsOn = yesNoIds qs ∧
    renderShowReason answers qs dependsOn cond
      = evalCondStr (yesCount answers (yesNoIds qs)) cond ∧
    submitNeedReason answers qs dependsOn cond
      = evalCondStr (yesCount answers (yesNoIds qs)) cond := by
  unfold renderShowReason submitNeedReason renderDepIds submitDepIds
  simp [h]

/-- Witness for C8 with an empty dependsOn cell and one availability
question. -/
theorem C8_empty_dependson_fallback_witness :
    renderDepIds [⟨"Q3", "yes_no"⟩] "" = yesNoIds [⟨"Q3", "yes_no"⟩] ∧
    submitDepIds [⟨"Q3", "yes_no"⟩] "" = yesNoIds [⟨"Q3", "yes_no"⟩] ∧
    renderShowReason [("Q3", "Yes")] [⟨"Q3", "yes_no"⟩] "" "yes_count<2"
      = evalCondStr (yesCount [("Q3", "Yes")] (yesNoIds [⟨"Q3", "yes_no"⟩]))
          "yes_count<2" ∧
    submitNeedReason [("Q3", "Yes")] [⟨"Q3", "yes_no"⟩] "" "yes_count<2"
      = evalCondStr (yesCount [("Q3", "Yes")] (yesNoIds [⟨"Q3", "yes_no"⟩]))
          "yes_count<2" :=
  C8_empty_dependson_fallback _ _ _ _ (by decide)

lemma ite_msg_ne (P : Prop) [Decidable P] (m : String) :
    ((if P then ([m] : List String) else []) ≠ []) ↔ P := by
  by_cases h : P <;> simp [h]

/-- Claim C10: submit-time validation flags exactly an unselected
director, an unselected person, an unanswered availability question, or
a required-but-too-short reason; and whenever any error exists, nothing
is appended to the store. -/
theorem C10_submit_validation_atomic (answers : List (String × String))
    (qs : List Question) (reason : Option ReasonSpec)
    (store : List (List String)) (row : List String) :
    (submitErrors answers qs reason ≠ [] ↔
      (getAns answers "Q1" = "" ∨ getAns answers "Q2" = "" ∨
       (∃ q ∈ yesNoIds qs, getAns answers q = "") ∨
       (∃ r, reason = some r ∧
         submitNeedReason answers qs r.dependsOn r.showCondition = true ∧
         reasonBad answers r = true))) ∧
    (submitErrors answers qs reason ≠ [] →
      submitStore store answers qs reason row = store) ∧
    (submitErrors answers qs reason = [] →
      submitStore store answers qs reason row = store ++ [row]) := by
  refine ⟨?_, fun h => by simp [submitStore, h],
    fun h => by simp [submitStore, h]⟩
  have havail : (availUnanswered answers (yesNoIds qs) ≠ []) ↔
      ∃ q ∈ yesNoIds qs, getAns answers q = "" := by
    unfold availUnanswered
    rw [Ne, List.filter_eq_nil_iff]
    push_neg
    simp
  unfold submitErrors
  cases reason with
  | none =>
    by_cases h1 : getAns answers "Q1" = "" <;>
    by_cases h2 : getAns answers "Q2" = "" <;>
    by_cases h3 : availUnanswered answers (yesNoIds qs) = [] <;>
      simp [h1, h2, h3, ← havail]
  | some r0 =>
    by_cases h1 : getAns answers "Q1" = "" <;>
    by_cases h2 : getAns answers "Q2" = "" <;>
    by_cases h3 : availUnanswered answers (yesNoIds qs) = [] <;>
    by_cases h4 : (submitNeedReason answers qs r0.dependsOn r0.showCondition
      && reasonBad answers r0) = true <;>
      rw [Bool.and_eq_true] at h4 <;>
      simp [h1, h2, h3, h4, ← havail]

/-- Witness for C10: an all-empty answer set produces errors and leaves
the store unchanged; a complete answer set appends exactly one row. -/
theorem C10_submit_validation_atomic_witness :
    submitStore [["old"]] [] [⟨"Q3", "yes_no"⟩] none ["new"] = [["old"]] ∧
    submitStore [["old"]]
      [("Q1", "Alice"), ("Q2", "Bea"), ("Q3", "Yes"), ("Q4", "No")]
      [⟨"Q3", "yes_no"⟩, ⟨"Q4", "yes_no"⟩] none ["new"]
      = [["old"], ["new"]] := by
  have h1 := C10_submit_validation_atomic [] [⟨"Q3", "yes_no"⟩] none
    [["old"]] ["new"]
  have h2 := C10_submit_validation_atomic
    [("Q1", "Alice"), ("Q2", "Bea"), ("Q3", "Yes"), ("Q4", "No")]
    [⟨"Q3", "yes_no"⟩, ⟨"Q4", "yes_no"⟩] none [["old"]] ["new"]
  exact ⟨h1.2.1 (by decide), h2.2.2 (by decide)⟩

/-! ## Helper lemmas for the non-responder report -/

lemma sortResp_perm (responses : List RespRow) :
    (sortResp responses).Perm (responses.map stripRow) :=
  List.perm_insertionSort RLe (responses.map stripRow)

lemma sortResp_sorted (responses : List RespRow) :
    (sortResp responses).Pairwise RLe :=
  List.sorted_insertionSort RLe (responses.map stripRow)

/-- In a list pairwise-sorted by the timestamp order, the last element
is above every element (or is that element). -/
lemma pairwise_getLast (l : List RespRow) (hs : l.Pairwise RLe)
    (hne : l ≠ []) :
    ∃ last, l.getLast? = some last ∧ last ∈ l ∧
      ∀ x ∈ l, RLe x last ∨ x = last := by
  induction l with
  | nil => exact absurd rfl hne
  | cons a t ih =>
    cases t with
    | nil =>
      refine ⟨a, rfl, by simp, ?_⟩
      intro x hx
      simp only [List.mem_singleton] at hx
      exact Or.inr hx
    | cons b t2 =>
      obtain ⟨last, h1, h2, h3⟩ := ih (List.Pairwise.of_cons hs) (by simp)
      refine ⟨last, ?_, List.mem_cons_of_mem a h2, ?_⟩
      · rw [List.getLast?_cons_cons]
        exact h1
      · intro x hx
        rcases List.mem_cons.mp hx with rfl | hx2
        · exact Or.inl ((List.pairwise_cons.mp hs).1 last h2)
        · exact h3 x hx2

/-- The merge marks a pair as responded exactly when it has at least
one response row and none of its rows has an unparseable timestamp. -/
lemma responded_iff (responses : List RespRow) (p : String × String) :
    responded responses p = true ↔
      (pairRows responses p ≠ [] ∧
        ∀ r ∈ pairRows responses p, r.ts ≠ none) := by
  unfold responded keptTs
  have hperm : ((sortResp responses).filter fun r =>
      r.director == p.1 && r.girl == p.2).Perm (pairRows responses p) :=
    (sortResp_perm responses).filter _
  have hsorted := (sortResp_sorted responses).filter
    (fun r => r.director == p.1 && r.girl == p.2)
  set g := (sortResp responses).filter fun r =>
    r.director == p.1 && r.girl == p.2 with hg
  by_cases hnil : g = []
  · rw [hnil]
    have hpr : pairRows responses p = [] := by
      rw [hnil] at hperm
      exact (hperm.symm).eq_nil
    simp [hpr]
  · obtain ⟨last, hl1, hl2, hl3⟩ := pairwise_getLast g hsorted hnil
    rw [hl1]
    constructor
    · intro hresp
      cases hts : last.ts with
      | none =>
        rw [Option.map_some', hts] at hresp
        simp at hresp
      | some t =>
        constructor
        · intro h0
          rw [h0] at hperm
          exact hnil hperm.eq_nil
        · intro r hr hrts
          have hrg : r ∈ g := hperm.mem_iff.mpr hr
          rcases hl3 r hrg with hle | heq
          · unfold RLe tsLe at hle
            rw [hrts, hts] at hle
            simp at hle
          · rw [heq, hts] at hrts
            cases hrts
    · rintro ⟨hne2, hall⟩
      have hlp : last ∈ pairRows responses p := hperm.mem_iff.mp hl2
      cases hts : last.ts with
      | none => exact absurd hts (hall last hlp)
      | some t => rw [Option.map_some', hts]

/-- When every row of the pair has a parseable timestamp, the kept row
carries the maximum timestamp of the pair's rows. -/
lemma kept_max (responses : List RespRow) (p : String × String)
    (hne : pairRows responses p ≠ [])
    (hall : ∀ r ∈ pairRows responses p, r.ts ≠ none) :
    ∃ t, keptTs responses p = some (some t) ∧
      (∃ r ∈ pairRows responses p, r.ts = some t) ∧
      ∀ r ∈ pairRows responses p, ∀ t2, r.ts = some t2 → t2 ≤ t := by
  unfold keptTs
  have hperm : ((sortResp responses).filter fun r =>
      r.director == p.1 && r.girl == p.2).Perm (pairRows responses p) :=
    (sortResp_perm responses).filter _
  have hsorted := (sortResp_sorted responses).filter
    (fun r => r.director == p.1 && r.girl == p.2)
  set g := (sortResp responses).filter fun r =>
    r.director == p.1 && r.girl == p.2 with hg
  have hnil : g ≠ [] := by
    intro h0
    rw [h0] at hperm
    exact hne hperm.symm.eq_nil
  obtain ⟨last, hl1, hl2, hl3⟩ := pairwise_getLast g hsorted hnil
  have hlp : last ∈ pairRows responses p := hperm.mem_iff.mp hl2
  cases hts : last.ts with
  | none => exact absurd hts (hall last hlp)
  | some t =>
    refine ⟨t, by rw [hl1, Option.map_some', hts], ⟨last, hlp, hts⟩, ?_⟩
    intro r hr t2 hrts
    have hrg : r ∈ g := hperm.mem_iff.mpr hr
    rcases hl3 r hrg with hle | heq
    · unfold RLe tsLe at hle
      rw [hrts, hts] at hle
      simpa using hle
    · rw [heq, hts] at hrts
      cases hrts
      exact le_refl t

/-- Claim C9 counterexample: a roster pair whose only response row has
an unparseable timestamp is reported as a non-responder even though a
matching response record exists. -/
theorem C9_unparseable_ts_counted_nonresponder :
    computeNonresponders [("A", "B")] [⟨"A", "B", none⟩] = [("A", "B")] ∧
    pairRows [⟨"A", "B", none⟩] ("A", "B") ≠ [] := by
  refine ⟨by decide, by decide⟩

/-- Claim C9 (amended): the report lists exactly the cleaned roster
pairs that have no response row or at least one row with an
unparseable timestamp; a pair all of whose rows parse is excluded, and
for it the kept (authoritative) row carries the most recent timestamp.
The store itself is read, never rewritten (the embedding is a pure
function of it). -/
theorem C9_nonresponder_characterization (roster : List (String × String))
    (responses : List RespRow) (p : String × String) :
    (p ∈ computeNonresponders roster responses ↔
      p ∈ cleanRoster roster ∧
        (pairRows responses p = [] ∨
          ∃ r ∈ pairRows responses p, r.ts = none)) ∧
    (p ∈ cleanRoster roster → pairRows responses p ≠ [] →
      (∀ r ∈ pairRows responses p, r.ts ≠ none) →
      p ∉ computeNonresponders roster responses ∧
      ∃ t, keptTs responses p = some (some t) ∧
        (∃ r ∈ pairRows responses p, r.ts = some t) ∧
        ∀ r ∈ pairRows responses p, ∀ t2, r.ts = some t2 → t2 ≤ t) := by
  have hmem : p ∈ computeNonresponders roster responses ↔
      p ∈ cleanRoster roster ∧ ¬(responded responses p = true) := by
    unfold computeNonresponders
    by_cases hr : responses = []
    · subst hr
      rw [if_pos rfl]
      have hfalse : responded [] p = false := rfl
      simp [hfalse]
    · rw [if_neg hr, List.mem_insertionSort, List.mem_filter]
      simp
  have hiff : p ∈ computeNonresponders roster responses ↔
      p ∈ cleanRoster roster ∧
        (pairRows responses p = [] ∨
          ∃ r ∈ pairRows responses p, r.ts = none) := by
    rw [hmem, responded_iff]
    constructor
    · rintro ⟨hc, h⟩
      refine ⟨hc, ?_⟩
      by_cases hP : pairRows responses p = []
      · exact Or.inl hP
      · right
        by_contra hE
        push_neg at hE
        exact h ⟨hP, hE⟩
    · rintro ⟨hc, h⟩
      refine ⟨hc, ?_⟩
      rintro ⟨hA, hB⟩
      rcases h with h | ⟨r, hr2, hts⟩
      · exact hA h
      · exact hB r hr2 hts
  refine ⟨hiff, fun h1 h2 h3 => ⟨?_, kept_max responses p h2 h3⟩⟩
  intro hin
  rcases (hiff.mp hin).2 with h | ⟨r, hr2, hts⟩
  · exact h2 h
  · exact h3 r hr2 hts

/-- Witness for C9 at a concrete roster and response store. -/
theorem C9_nonresponder_characterization_witness :
    ("A", "B") ∉ computeNonresponders [("A", "B")] [⟨"A", "B", some 5⟩] ∧
    ∃ t, keptTs [⟨"A", "B", some 5⟩] ("A", "B") = some (some t) ∧
      (∃ r ∈ pairRows [⟨"A", "B", some 5⟩] ("A", "B"), r.ts = some t) ∧
      ∀ r ∈ pairRows [⟨"A", "B", some 5⟩] ("A", "B"), ∀ t2,
        r.ts = some t2 → t2 ≤ t := by
  have h := C9_nonresponder_characterization [("A", "B")]
    [⟨"A", "B", some 5⟩] ("A", "B")
  exact h.2 (by decide) (by decide) (by decide)

end UKidsAvailability
